import Mathlib

/-!
# Verification of the pubtools-ami per-region publish/delete pipeline

Shallow embedding of the core of `pubtools-ami`: the region partitioner
(`AmiBase.region_data`), the RHSM product lookup (`AmiBase.to_rhsm_product`),
the RHSM metadata synchronizers (`AmiPush.update_rhsm_metadata`,
`AmiDelete.update_rhsm_metadata`), the per-region batch functions
(`AmiPush._push_to_region`, `AmiDelete._delete_in_region`, `AmiDelete._delete`),
the executor-level retry wrapper (`more_executors` `ExceptionRetryPolicy`
with `max_attempts = args.max_retries`), the item-level retry loop of the
legacy `AmiPush._push_to_region`, the result serializer
(`AmiBase.collect_push_result`), and the delete task driver
(`AmiDelete.limit_push_items`, `AmiDelete.run`).

Python `None`-able values are `Option`; Python string truthiness (empty
string and `None` are falsy) is modelled explicitly; network calls are
modelled as oracle functions passed in as parameters, and observable side
effects (cloud publish/delete calls, RHSM write calls) are collected in an
event trace returned alongside each function's result.  Fallible code
returns `Except` / an `Option` error component.
-/

namespace PubtoolsAmi

/-- Python truthiness of an optional string: `None` and `""` are falsy. -/
def truthyOptStr : Option String → Bool
  | none => false
  | some s => !(s == "")

/-- Python truthiness of an optional list: `None` and `[]` are falsy. -/
def truthyOptList {α : Type} : Option (List α) → Bool
  | none => false
  | some l => !l.isEmpty

/-- JSON values, as produced by `json.dumps` on the result dictionaries. -/
inductive Json where
  | null
  | str (s : String)
  | bool (b : Bool)
  | num (n : Int)
  | arr (xs : List Json)
  | obj (kvs : List (String × Json))

/-- An optional string serialized by `attr.asdict` + `json.dumps`. -/
def optStr : Option String → Json
  | none => Json.null
  | some s => Json.str s

/-- An optional bool serialized by `attr.asdict` + `json.dumps`. -/
def optBool : Option Bool → Json
  | none => Json.null
  | some b => Json.bool b

/-- A calendar date (`release.date`, a `datetime` in the source). -/
structure Date where
  year : Nat
  month : Nat
  day : Nat
deriving DecidableEq, Repr

/-- Zero-pad a numeral to the given width, as `strftime` does. -/
def padNum (width : Nat) (n : Nat) : String :=
  let s := toString n
  String.mk (List.replicate (width - s.length) '0') ++ s

/-- `date.strftime("%Y%m%d")`. -/
def strftimeYmd (d : Date) : String :=
  padNum 4 d.year ++ padNum 2 d.month ++ padNum 2 d.day

/-- `pushsource.AmiRelease`: the release metadata block of a push item. -/
structure AmiRelease where
  product : String
  date : Date
  arch : String
  respin : Nat
  version : Option String := none
  variant : Option String := none
  base_product : Option String := none
  base_version : Option String := none
  type : Option String := none
deriving DecidableEq, Repr

/-- `pushsource.AmiBillingCodes`. -/
structure AmiBillingCodes where
  name : String
  codes : List String
deriving DecidableEq, Repr

/-- `pushsource.BootMode` enum. -/
inductive BootMode where
  | legacy
  | uefi
  | hybrid
deriving DecidableEq, Repr

/-- `BootMode.value`: the string value of the enum member. -/
def BootMode.value : BootMode → String
  | .legacy => "legacy"
  | .uefi => "uefi"
  | .hybrid => "hybrid"

/-- `pushsource.AmiPushItem`: one image to publish or delete, with the
fields the pipeline reads and serializes. -/
structure AmiPushItem where
  name : String
  state : String
  src : Option String := none
  dest : List String := []
  description : Option String := none
  region : String
  type : String
  virtualization : String
  volume : String
  root_device : Option String := none
  sriov_net_support : Option String := none
  ena_support : Option Bool := none
  billing_codes : AmiBillingCodes
  release : AmiRelease
  image_id : Option String := none
  public_image : Option Bool := none
  boot_mode : Option BootMode := none
deriving DecidableEq, Repr

/-- One work-unit dictionary (`dest_data`) as built by `region_data` and
mutated by the per-region batch functions.  A field of value `none` models
a key absent from the Python dict; `some v` models the key present with
value `v` (which may itself be `None`, hence the nested `Option`). -/
structure DestData where
  push_item : AmiPushItem
  state : Option String := none
  image_id : Option (Option String) := none
  image_name : Option (Option String) := none
  snapshot_id : Option (Option String) := none
deriving DecidableEq, Repr

/-- Initial work unit for an item: `{"push_item": item}`. -/
def DestData.initial (item : AmiPushItem) : DestData := { push_item := item }

/-- Append `d` to the list bound to `key`, creating the binding at the end
if absent: `region_data.setdefault(key, []).append(d)` over an
insertion-ordered dict. -/
def setdefaultAppend {κ : Type} [DecidableEq κ] (m : List (κ × List DestData))
    (key : κ) (d : DestData) : List (κ × List DestData) :=
  match m with
  | [] => [(key, [d])]
  | (k, ds) :: rest =>
      if k = key then (k, ds ++ [d]) :: rest
      else (k, ds) :: setdefaultAppend rest key d

/-- The body of the outer loop of `AmiBase.region_data`: for each entry of
`item.dest`, `region_data.setdefault((item, region), []).append({"push_item": item})`
with `region = item.region`. -/
def region_data_step (m : List ((AmiPushItem × String) × List DestData))
    (item : AmiPushItem) : List ((AmiPushItem × String) × List DestData) :=
  item.dest.foldl
    (fun m _ => setdefaultAppend m (item, item.region) (DestData.initial item)) m

/-- `AmiBase.region_data`: group one `{"push_item": item}` dict per
destination of each item under the key `(item, item.region)`; the source
returns the dict's values, here the full association list is kept (keys
included) so that theorems can speak about the grouping keys. -/
def region_data (items : List AmiPushItem) :
    List ((AmiPushItem × String) × List DestData) :=
  items.foldl region_data_step []

/-- Total number of work units over all groups. -/
def countUnits (m : List ((AmiPushItem × String) × List DestData)) : Nat :=
  (m.map (fun g => g.2.length)).sum

/-- Every group of the mapping is keyed by `(item, item.region)` and holds
only the initial work units of its own item. -/
def GroupsWellFormed (m : List ((AmiPushItem × String) × List DestData)) : Prop :=
  ∀ g ∈ m, g.1.2 = g.1.1.region ∧ g.2 ≠ [] ∧ ∀ d ∈ g.2, d = DestData.initial g.1.1

/-- Python `str.upper()` (ASCII): each character upper-cased. -/
def pyUpper (s : String) : String := String.mk (s.data.map Char.toUpper)

/-- An entry of the RHSM product list (`response.json()["body"]`). -/
structure RhsmProduct where
  name : String
  providerShortName : String
deriving DecidableEq, Repr

/-- `AmiBase.to_rhsm_product`: upper-case the image type, append `_HOURLY`
to the product short name for hourly images, and return the first cached
RHSM product matching both the resulting name and the configured provider
name; raise `MissingProductError` when none matches. -/
def to_rhsm_product (rhsm_products : List RhsmProduct) (aws_provider_name : String)
    (product : String) (image_type : String) : Except String RhsmProduct :=
  let image_type := pyUpper image_type
  let product := if image_type == "HOURLY" then product ++ "_" ++ image_type else product
  match rhsm_products.find? (fun p =>
      p.name == product && p.providerShortName == aws_provider_name) with
  | some p => Except.ok p
  | none => Except.error ("Product not in rhsm: " ++ product)

/-- The name looked up in RHSM, in the spec's words: `productShortName +
"_HOURLY"` exactly when the upper-cased image type is `"HOURLY"`. -/
def lookedUpName (product image_type : String) : String :=
  if pyUpper image_type = "HOURLY" then product ++ "_HOURLY" else product

/-- The spec's match condition for a product: name equals the looked-up
name and `providerShortName` equals the configured provider name. -/
def productMatches (aws_provider_name target : String) (p : RhsmProduct) : Prop :=
  p.name = target ∧ p.providerShortName = aws_provider_name

instance (prov target : String) (p : RhsmProduct) :
    Decidable (productMatches prov target p) := by
  unfold productMatches; infer_instance

/-- An HTTP response as the pipeline observes it (`response.ok`,
`response.status_code`). -/
structure Response where
  ok : Bool
  status_code : Nat
deriving DecidableEq, Repr

/-- The image handle returned by the cloud publish capability. -/
structure Image where
  id : String
  name : String
deriving DecidableEq, Repr

/-- The keyword arguments passed to `rhsm_client.update_image` /
`rhsm_client.create_image` (the `image_meta` dict).  `region` is present
only on the create path; `status` only on the delete path. -/
structure ImageMeta where
  image_id : Option String
  image_name : String
  arch : String
  product_name : String
  version : Option String
  variant : Option String
  status : Option String := none
  region : Option String := none
deriving DecidableEq, Repr

/-- The fields of `cloudimg.aws.AWSDeleteMetadata` built by `AmiDelete._delete`. -/
structure DeleteMeta where
  image_id : Option String
  image_name : String
  snapshot_id : Option String
  snapshot_name : String
  skip_snapshot : Bool
deriving DecidableEq, Repr

/-- Observable side effects of the pipeline, in program order. -/
inductive Event where
  | createRegion (region provider : String)
  | updateImage (meta : ImageMeta)
  | createImage (meta : ImageMeta)
  | warnSkip (image_id : Option String)
  | awsDelete (meta : DeleteMeta)
  | upload (item : AmiPushItem)
  | collectResults
deriving DecidableEq, Repr

/-- Exceptions the pipeline raises. -/
inductive TaskError where
  | httpError (resp : Response)
  | missingProduct (msg : String)
  | awsDeleteError (msg : String)
  | awsPublishError (msg : String)
deriving DecidableEq, Repr

/-- How a task run ends: normal return, `self.fail` (`sys.exit(30)`), or an
uncaught exception. -/
inductive ExitOutcome where
  | ok
  | failCode (code : Nat)
  | exception (e : TaskError)
deriving DecidableEq, Repr

/-- Python `x or None` on an optional string: `None` when `x` is falsy. -/
def orNone (v : Option String) : Option String :=
  if truthyOptStr v then v else none

/-- `AmiBase.name_from_metadata`: build the image name from the release
metadata. -/
def name_from_metadata (push_item : AmiPushItem) : String :=
  let release := push_item.release
  let parts :=
    match release.base_product with
    | some bp =>
        [bp] ++ (match release.base_version with | some bv => [bv] | none => [])
    | none => []
  let parts := parts ++ [release.product]
  let underscore_parts :=
    (match release.version with | some v => [v] | none => [])
      ++ [pyUpper push_item.virtualization]
      ++ (match release.type with | some t => [pyUpper t] | none => [])
  let parts := parts ++ [String.intercalate "_" underscore_parts]
  let parts := parts ++ [strftimeYmd release.date, release.arch,
    toString release.respin, push_item.billing_codes.name, pyUpper push_item.volume]
  String.intercalate "-" parts

/-- The responses the RHSM client returns to the publish-path metadata
synchronizer, one per call it makes. -/
structure RhsmPushResponses where
  create_region : Response
  update_image : Response
  create_image : Response
deriving DecidableEq, Repr

/-- The `image_meta` dict built by `AmiPush.update_rhsm_metadata`. -/
def pushImageMeta (rhsm_prod : RhsmProduct) (image : Image)
    (push_item : AmiPushItem) : ImageMeta :=
  { image_id := some image.id
    image_name := image.name
    arch := push_item.release.arch
    product_name := rhsm_prod.name
    version := orNone push_item.release.version
    variant := orNone push_item.release.variant }

/-- `AmiPush.update_rhsm_metadata`: create the image's region (any non-ok
response raises), then try `update_image`; on a non-ok update response fall
back to `create_image` with the region added, and raise if that is also
non-ok.  Returns the calls made in order and the outcome. -/
def update_rhsm_metadata (resp : RhsmPushResponses) (rhsm_products : List RhsmProduct)
    (aws_provider_name : String) (image : Image) (push_item : AmiPushItem) :
    List Event × Except TaskError Unit :=
  let ev0 := [Event.createRegion push_item.region aws_provider_name]
  if !resp.create_region.ok then
    (ev0, Except.error (TaskError.httpError resp.create_region))
  else
    match to_rhsm_product rhsm_products aws_provider_name
        push_item.release.product push_item.type with
    | Except.error msg => (ev0, Except.error (TaskError.missingProduct msg))
    | Except.ok rhsm_prod =>
      let image_meta := pushImageMeta rhsm_prod image push_item
      let ev1 := ev0 ++ [Event.updateImage image_meta]
      if resp.update_image.ok then (ev1, Except.ok ())
      else
        let create_meta := { image_meta with region := some push_item.region }
        let ev2 := ev1 ++ [Event.createImage create_meta]
        if resp.create_image.ok then (ev2, Except.ok ())
        else (ev2, Except.error (TaskError.httpError resp.create_image))

/-- The `AWSDeleteMetadata` built by `AmiDelete._delete` for a push item:
snapshot fields fall back via `getattr` (absent on `AmiPushItem`), the
names come from `name_from_metadata`, and `--keep-snapshot` sets
`skip_snapshot`. -/
def deleteMetaFor (keep_snapshot : Bool) (push_item : AmiPushItem) : DeleteMeta :=
  let name := name_from_metadata push_item
  { image_id := push_item.image_id
    image_name := name
    snapshot_id := none
    snapshot_name := name
    skip_snapshot := keep_snapshot }

/-- `AmiDelete._delete`: call the AWS delete capability; wrap any raised
exception in `AWSDeleteError`; otherwise return the pair of deleted ids. -/
def _delete (aws_delete : DeleteMeta → Except String (Option String × Option String))
    (keep_snapshot : Bool) (push_item : AmiPushItem) :
    List Event × Except TaskError (Option String × Option String) :=
  let metadata := deleteMetaFor keep_snapshot push_item
  match aws_delete metadata with
  | Except.error msg =>
      ([Event.awsDelete metadata], Except.error (TaskError.awsDeleteError msg))
  | Except.ok out => ([Event.awsDelete metadata], Except.ok out)

/-- `AmiDelete._delete_in_region`: process the region's work units in
order.  Dry run logs and leaves every unit untouched.  Otherwise delete in
AWS; a raised exception aborts the batch (units already processed keep
their updates, the rest are unchanged); on success the state is `DELETED`
when at least one returned id is truthy, else `MISSING`, and the unit's
dict is updated in place.  Returns (events, the batch's unit dicts as left
in memory, the exception if one aborted the loop). -/
def _delete_in_region (dry_run keep_snapshot : Bool)
    (aws_delete : DeleteMeta → Except String (Option String × Option String)) :
    List DestData → List Event × List DestData × Option TaskError
  | [] => ([], [], none)
  | dest_data :: rest =>
    let push_item := dest_data.push_item
    if dry_run then
      let (ev, out, err) := _delete_in_region dry_run keep_snapshot aws_delete rest
      (ev, dest_data :: out, err)
    else
      match _delete aws_delete keep_snapshot push_item with
      | (ev1, Except.error e) => (ev1, dest_data :: rest, some e)
      | (ev1, Except.ok (image_id, snapshot_id)) =>
        let state :=
          if truthyOptStr image_id || truthyOptStr snapshot_id then "DELETED"
          else "MISSING"
        let dd : DestData := {
          push_item := { push_item with state := state }
          state := some state
          image_id := some image_id
          snapshot_id := some snapshot_id
          image_name := dest_data.image_name }
        let (ev2, out, err) := _delete_in_region dry_run keep_snapshot aws_delete rest
        (ev1 ++ ev2, dd :: out, err)

/-- `AmiPush._push_to_region` (concurrent-pool variant): skip units whose
dict records state `PUSHED` (`dest_data.get("state", "") == "PUSHED"`);
otherwise call `upload`; an exception is re-raised and aborts the batch;
on success record state `PUSHED`, the image id and the metadata name. -/
def _push_to_region (upload : AmiPushItem → Except TaskError String) :
    List DestData → List Event × List DestData × Option TaskError
  | [] => ([], [], none)
  | dest_data :: rest =>
    if dest_data.state.getD "" == "PUSHED" then
      let (ev, out, err) := _push_to_region upload rest
      (ev, dest_data :: out, err)
    else
      let push_item := dest_data.push_item
      match upload push_item with
      | Except.error e => ([Event.upload push_item], dest_data :: rest, some e)
      | Except.ok image_id =>
        let dd : DestData := {
          push_item := { push_item with state := "PUSHED" }
          state := some "PUSHED"
          image_id := some (some image_id)
          image_name := some (some (name_from_metadata push_item))
          snapshot_id := dest_data.snapshot_id }
        let (ev, out, err) := _push_to_region upload rest
        (Event.upload push_item :: ev, dd :: out, err)

/-- The item-level retry loop of the legacy `AmiPush._push_to_region`:
call `upload`; on `HTTPError`/`AWSPublishError` sleep and retry while the
retry counter is positive; after `max_retries + 1` failed calls give up
with state `NOTPUSHED`.  Returns (upload calls, state, image id, name). -/
def upload_with_retries (upload : AmiPushItem → Except TaskError (String × String))
    (push_item : AmiPushItem) :
    Nat → List Event × String × Option String × Option String
  | 0 =>
    match upload push_item with
    | Except.ok (image_id, image_name) =>
        ([Event.upload push_item], "PUSHED", some image_id, some image_name)
    | Except.error _ => ([Event.upload push_item], "NOTPUSHED", none, none)
  | r + 1 =>
    match upload push_item with
    | Except.ok (image_id, image_name) =>
        ([Event.upload push_item], "PUSHED", some image_id, some image_name)
    | Except.error _ =>
      let (ev, s, i, n) := upload_with_retries upload push_item r
      (Event.upload push_item :: ev, s, i, n)

/-- The legacy `AmiPush._push_to_region`: every unit is uploaded through
the item-level retry loop and its dict updated with the final state. -/
def legacy_push_to_region (upload : AmiPushItem → Except TaskError (String × String))
    (max_retries : Nat) : List DestData → List Event × List DestData
  | [] => ([], [])
  | dest_data :: rest =>
    let push_item := dest_data.push_item
    let (ev, state, image_id, image_name) :=
      upload_with_retries upload push_item max_retries
    let dd : DestData := {
      push_item := { push_item with state := state }
      state := some state
      image_id := some image_id
      image_name := some image_name
      snapshot_id := dest_data.snapshot_id }
    let (ev2, out) := legacy_push_to_region upload max_retries rest
    (ev ++ ev2, dd :: out)

/-- The legacy `AmiPush.run` after pre-flight: push every region batch,
flag failure when any result lacks a truthy `image_id`, collect results,
and `self.fail` (exit 30) on failure. -/
def legacy_push_fold_step (upload : AmiPushItem → Except TaskError (String × String))
    (max_retries : Nat) (acc : List Event × List DestData)
    (g : (AmiPushItem × String) × List DestData) : List Event × List DestData :=
  let (ev, out) := legacy_push_to_region upload max_retries g.2
  (acc.1 ++ ev, acc.2 ++ out)

/-- The legacy `AmiPush.run` after pre-flight: push every region batch,
flag failure when any result lacks a truthy `image_id`, collect the
results and `self.fail` (exit 30) on failure. -/
def legacy_push_run (upload : AmiPushItem → Except TaskError (String × String))
    (max_retries : Nat) (items : List AmiPushItem) : List Event × ExitOutcome :=
  let folded := (region_data items).foldl (legacy_push_fold_step upload max_retries)
    ([], [])
  let failed := folded.2.any (fun r => !truthyOptStr (r.image_id.getD none))
  let ev := folded.1 ++ [Event.collectResults]
  if failed then (ev, ExitOutcome.failCode 30) else (ev, ExitOutcome.ok)

/-- The `more_executors` retry wrapper (`ExceptionRetryPolicy` with
`max_attempts = args.max_retries`): run the batch function; while it
raises and fewer than `max_attempts` attempts were made, run it again on
the batch's (mutated-in-place) unit dicts.  The first attempt always runs,
so `0` and `1` both mean one attempt. -/
def retryBatch (f : List DestData → List Event × List DestData × Option TaskError) :
    Nat → List DestData → List Event × List DestData × Option TaskError
  | 0, data => f data
  | 1, data => f data
  | n + 2, data =>
    match f data with
    | (ev, out, none) => (ev, out, none)
    | (ev, out, some _) =>
      let (ev2, out2, err2) := retryBatch f (n + 1) out
      (ev ++ ev2, out2, err2)

/-- `AmiDelete.do_delete`: partition into region batches, run each batch
under the executor retry policy; a batch whose final attempt raised is
logged and flips the failure flag and contributes no results; results of
completed batches are concatenated. -/
def do_delete_step (dry_run keep_snapshot : Bool) (max_retries : Nat)
    (aws_delete : DeleteMeta → Except String (Option String × Option String))
    (acc : List Event × Bool × List DestData)
    (g : (AmiPushItem × String) × List DestData) :
    List Event × Bool × List DestData :=
  let (ev, out, err) :=
    retryBatch (_delete_in_region dry_run keep_snapshot aws_delete) max_retries g.2
  match err with
  | none => (acc.1 ++ ev, acc.2.1, acc.2.2 ++ out)
  | some _ => (acc.1 ++ ev, true, acc.2.2)

def do_delete (dry_run keep_snapshot : Bool) (max_retries : Nat)
    (aws_delete : DeleteMeta → Except String (Option String × Option String))
    (items : List AmiPushItem) : List Event × Bool × List DestData :=
  (region_data items).foldl
    (do_delete_step dry_run keep_snapshot max_retries aws_delete) ([], false, [])

/-- `AmiDelete.limit_push_items`: when `--limit` is given (truthy), keep
exactly the push items whose `image_id` occurs in the limit list. -/
def limit_push_items : Option (List String) → List AmiPushItem → List AmiPushItem
  | none, items => items
  | some l, items =>
    if l.isEmpty then items
    else items.filter (fun item =>
      match item.image_id with
      | some iid => decide (iid ∈ l)
      | none => false)

/-- Whether `item.image_id not in rhsm_image_ids` is false: membership of
the (possibly `None`) image id in the set of RHSM-known ids. -/
def imageIdKnown (rhsm_image_ids : List String) : Option String → Bool
  | some iid => decide (iid ∈ rhsm_image_ids)
  | none => false

/-- The `image_meta` dict built by `AmiDelete.update_rhsm_metadata`, with
status `"invisible"`. -/
def deleteImageMeta (rhsm_prod : RhsmProduct) (item : AmiPushItem) : ImageMeta :=
  { image_id := item.image_id
    image_name := item.name
    arch := item.release.arch
    product_name := rhsm_prod.name
    version := orNone item.release.version
    variant := orNone item.release.variant
    status := some "invisible" }

/-- `AmiDelete.update_rhsm_metadata`: for each item in order, skip with a
warning when its `image_id` is not among the RHSM-known ids; otherwise
build the `invisible` update metadata (resolving the product, which may
raise `MissingProductError`), skip the call on dry run, and call
`update_image`; a non-ok response raises immediately, aborting the loop. -/
def delete_update_rhsm_metadata (rhsm_image_ids : List String)
    (rhsm_products : List RhsmProduct) (aws_provider_name : String)
    (dry_run : Bool) (update_resp : ImageMeta → Response) :
    List AmiPushItem → List Event × Except TaskError Unit
  | [] => ([], Except.ok ())
  | item :: rest =>
    if imageIdKnown rhsm_image_ids item.image_id then
      match to_rhsm_product rhsm_products aws_provider_name
          item.release.product item.type with
      | Except.error msg => ([], Except.error (TaskError.missingProduct msg))
      | Except.ok rhsm_prod =>
        if dry_run then
          delete_update_rhsm_metadata rhsm_image_ids rhsm_products
            aws_provider_name dry_run update_resp rest
        else
          if (update_resp (deleteImageMeta rhsm_prod item)).ok then
            let (ev, res) := delete_update_rhsm_metadata rhsm_image_ids rhsm_products
              aws_provider_name dry_run update_resp rest
            (Event.updateImage (deleteImageMeta rhsm_prod item) :: ev, res)
          else
            ([Event.updateImage (deleteImageMeta rhsm_prod item)],
             Except.error
               (TaskError.httpError (update_resp (deleteImageMeta rhsm_prod item))))
    else
      let (ev, res) := delete_update_rhsm_metadata rhsm_image_ids rhsm_products
        aws_provider_name dry_run update_resp rest
      (Event.warnSkip item.image_id :: ev, res)

/-- `AmiDelete.run`: limit the push items, return early when none are
selected, set images invisible in RHSM (an uncaught raise aborts the whole
task here, before any AWS deletion), delete in AWS, then either log the
dry run or collect results and `self.fail` (exit 30) on failure. -/
def delete_run (dry_run keep_snapshot : Bool) (limit : Option (List String))
    (max_retries : Nat) (rhsm_image_ids : List String)
    (rhsm_products : List RhsmProduct) (aws_provider_name : String)
    (update_resp : ImageMeta → Response)
    (aws_delete : DeleteMeta → Except String (Option String × Option String))
    (source_items : List AmiPushItem) : List Event × ExitOutcome :=
  let items := limit_push_items limit source_items
  if items.isEmpty then ([], ExitOutcome.ok)
  else
    match delete_update_rhsm_metadata rhsm_image_ids rhsm_products
        aws_provider_name dry_run update_resp items with
    | (ev, Except.error e) => (ev, ExitOutcome.exception e)
    | (ev, Except.ok _) =>
      let dd := do_delete dry_run keep_snapshot max_retries aws_delete items
      if dry_run then (ev ++ dd.1, ExitOutcome.ok)
      else
        let ev3 := ev ++ dd.1 ++ [Event.collectResults]
        if dd.2.1 then (ev3, ExitOutcome.failCode 30) else (ev3, ExitOutcome.ok)

/-- Number of AWS delete calls in a trace. -/
def countAwsDelete (ev : List Event) : Nat :=
  (ev.filter (fun e => match e with | Event.awsDelete _ => true | _ => false)).length

/-- Number of upload (cloud publish) calls in a trace. -/
def countUpload (ev : List Event) : Nat :=
  (ev.filter (fun e => match e with | Event.upload _ => true | _ => false)).length

/-- `attr.asdict` + `json.dumps default=convert` on a `BootMode` value. -/
def jsonOfBootMode : Option BootMode → Json
  | none => Json.null
  | some b => Json.str b.value

/-- The nested dict `attr.asdict` produces for `release` (dates converted
to `YYYYMMDD` strings by the `convert` default). -/
def releaseDict (r : AmiRelease) : List (String × Json) :=
  [("product", Json.str r.product),
   ("date", Json.str (strftimeYmd r.date)),
   ("arch", Json.str r.arch),
   ("respin", Json.num (Int.ofNat r.respin)),
   ("version", optStr r.version),
   ("variant", optStr r.variant),
   ("base_product", optStr r.base_product),
   ("base_version", optStr r.base_version),
   ("type", optStr r.type)]

/-- The nested dict `attr.asdict` produces for `billing_codes`. -/
def billingCodesDict (b : AmiBillingCodes) : List (String × Json) :=
  [("name", Json.str b.name), ("codes", Json.arr (b.codes.map Json.str))]

/-- `attr.asdict(push_item)` as serialized by `json.dumps` with the task's
`convert` default: one key per push-item attribute, `None` as JSON null. -/
def pushItemDict (item : AmiPushItem) : List (String × Json) :=
  [("name", Json.str item.name),
   ("state", Json.str item.state),
   ("src", optStr item.src),
   ("dest", Json.arr (item.dest.map Json.str)),
   ("description", optStr item.description),
   ("region", Json.str item.region),
   ("type", Json.str item.type),
   ("virtualization", Json.str item.virtualization),
   ("volume", Json.str item.volume),
   ("root_device", optStr item.root_device),
   ("sriov_net_support", optStr item.sriov_net_support),
   ("ena_support", optBool item.ena_support),
   ("billing_codes", Json.obj (billingCodesDict item.billing_codes)),
   ("release", Json.obj (releaseDict item.release)),
   ("image_id", optStr item.image_id),
   ("public_image", optBool item.public_image),
   ("boot_mode", jsonOfBootMode item.boot_mode)]

/-- `value is not None` on a serialized value. -/
def isNotNull : Json → Bool
  | Json.null => false
  | _ => true

/-- Delete every top-level key whose value is `None`
(`for key in list(res_dict): if res_dict[key] is None: del res_dict[key]`). -/
def stripNulls (kvs : List (String × Json)) : List (String × Json) :=
  kvs.filter (fun kv => isNotNull kv.2)

/-- Python dict assignment `d[k] = v`: replace the value of an existing
key in place, else append the binding. -/
def setKey (kvs : List (String × Json)) (k : String) (v : Json) :
    List (String × Json) :=
  match kvs with
  | [] => [(k, v)]
  | (k0, v0) :: rest => if k0 = k then (k, v) :: rest else (k0, v0) :: setKey rest k v

/-- Key lookup in the re-parsed JSON object. -/
def jLookup (kvs : List (String × Json)) (k : String) : Option Json :=
  match kvs with
  | [] => none
  | (k0, v) :: rest => if k0 = k then some v else jLookup rest k

/-- One entry of `RESULT_KEY_MAPPING`:
`if v in result: res_dict[k] = result[v]`. -/
def setKeyIfPresent (kvs : List (String × Json)) (k : String) :
    Option (Option String) → List (String × Json)
  | some v => setKey kvs k (optStr v)
  | none => kvs

/-- One entry of `images.json` as built by `AmiBase.collect_push_result`:
serialize the push item, strip top-level nulls, then apply
`RESULT_KEY_MAPPING` (`ami ← image_id`, `name ← image_name`,
`snapshot_id ← snapshot_id`) for the keys present in the result dict, in
that order. -/
def collect_result_entry (result : DestData) : List (String × Json) :=
  setKeyIfPresent (setKeyIfPresent (setKeyIfPresent
      (stripNulls (pushItemDict result.push_item))
      "ami" result.image_id)
    "name" result.image_name)
    "snapshot_id" result.snapshot_id

/-- A sample release block, for concrete witnesses. -/
def sampleRelease : AmiRelease :=
  { product := "RHTEST", date := ⟨2023, 3, 6⟩, arch := "x86_64", respin := 1 }

/-- A sample push item, for concrete witnesses. -/
def sampleItem : AmiPushItem :=
  { name := "fake-name"
    state := "PENDING"
    src := some "/fake/path"
    dest := ["fake-dest"]
    region := "us-east-1"
    type := "access"
    virtualization := "hvm"
    volume := "gp2"
    billing_codes := { name := "fake-bc", codes := ["0", "1"] }
    release := sampleRelease }

/-- A sample RHSM product list matching `sampleItem`. -/
def sampleProducts : List RhsmProduct := [{ name := "RHTEST", providerShortName := "AWS" }]

/-- A sample push item already deleted on a previous batch attempt. -/
def sampleDeletedItem : AmiPushItem :=
  { sampleItem with state := "DELETED", image_id := some "ami-fake-id-01" }

/-- A sample work-unit dict left by a successful prior delete attempt. -/
def sampleDeletedUnit : DestData :=
  { push_item := sampleDeletedItem
    state := some "DELETED"
    image_id := some (some "ami-fake-id-01")
    snapshot_id := some none }

/-- A sample collected push result. -/
def sampleResult : DestData :=
  { push_item := sampleItem
    state := some "PUSHED"
    image_id := some (some "ami-1234567")
    image_name := some (some "ami-rhel") }

/-! ## Theorems -/

theorem countUnits_setdefaultAppend (m : List ((AmiPushItem × String) × List DestData))
    (key : AmiPushItem × String) (u : DestData) :
    countUnits (setdefaultAppend m key u) = countUnits m + 1 := by
  induction m with
  | nil => simp [setdefaultAppend, countUnits]
  | cons p tl ih =>
    obtain ⟨k, ds⟩ := p
    by_cases h : k = key
    · simp [setdefaultAppend, h, countUnits]
      omega
    · simp only [setdefaultAppend, if_neg h, countUnits, List.map_cons, List.sum_cons]
      simp only [countUnits] at ih
      omega

theorem countUnits_foldAppend (l : List String) (key : AmiPushItem × String)
    (u : DestData) (m : List ((AmiPushItem × String) × List DestData)) :
    countUnits (l.foldl (fun m _ => setdefaultAppend m key u) m)
      = countUnits m + l.length := by
  induction l generalizing m with
  | nil => simp
  | cons hd tl ih =>
    simp only [List.foldl_cons, ih, countUnits_setdefaultAppend, List.length_cons]
    omega

theorem countUnits_region_data_step (m : List ((AmiPushItem × String) × List DestData))
    (item : AmiPushItem) :
    countUnits (region_data_step m item) = countUnits m + item.dest.length := by
  unfold region_data_step
  exact countUnits_foldAppend item.dest (item, item.region) (DestData.initial item) m

theorem countUnits_foldItems (items : List AmiPushItem)
    (m : List ((AmiPushItem × String) × List DestData)) :
    countUnits (items.foldl region_data_step m)
      = countUnits m + (items.map (fun i => i.dest.length)).sum := by
  induction items generalizing m with
  | nil => simp
  | cons hd tl ih =>
    simp only [List.foldl_cons, ih, countUnits_region_data_step, List.map_cons,
      List.sum_cons]
    omega

theorem groupsWF_setdefaultAppend (key : AmiPushItem × String) (u : DestData)
    (hkey : key.2 = key.1.region) (hu : u = DestData.initial key.1) :
    ∀ m, GroupsWellFormed m → GroupsWellFormed (setdefaultAppend m key u) := by
  intro m
  induction m with
  | nil =>
    intro _
    unfold GroupsWellFormed
    intro g hg
    simp only [setdefaultAppend, List.mem_singleton] at hg
    subst hg
    refine ⟨hkey, by simp, ?_⟩
    intro d hd
    simp only [List.mem_singleton] at hd
    subst hd
    exact hu
  | cons p tl ih =>
    obtain ⟨k, ds⟩ := p
    intro hwf
    have hk := hwf (k, ds) (List.mem_cons_self _ _)
    have htl : GroupsWellFormed tl := fun g hg => hwf g (List.mem_cons_of_mem _ hg)
    unfold GroupsWellFormed
    intro g hg
    simp only [setdefaultAppend] at hg
    by_cases h : k = key
    · rw [if_pos h] at hg
      rcases List.mem_cons.mp hg with hg1 | hg1
      · subst hg1
        refine ⟨hk.1, by simp, ?_⟩
        intro d hd
        rcases List.mem_append.mp hd with hd1 | hd1
        · exact hk.2.2 d hd1
        · simp only [List.mem_singleton] at hd1
          subst hd1
          rw [hu, h]
      · exact htl g hg1
    · rw [if_neg h] at hg
      rcases List.mem_cons.mp hg with hg1 | hg1
      · subst hg1; exact hk
      · exact ih htl g hg1

theorem groupsWF_region_data_step (item : AmiPushItem) :
    ∀ m, GroupsWellFormed m → GroupsWellFormed (region_data_step m item) := by
  unfold region_data_step
  generalize item.dest = l
  induction l with
  | nil => intro m hm; exact hm
  | cons hd tl ih =>
    intro m hm
    simp only [List.foldl_cons]
    exact ih _ (groupsWF_setdefaultAppend (item, item.region) (DestData.initial item)
      rfl rfl m hm)

theorem groupsWF_region_data (items : List AmiPushItem) :
    GroupsWellFormed (region_data items) := by
  unfold region_data
  have main : ∀ m, GroupsWellFormed m → GroupsWellFormed (items.foldl region_data_step m) := by
    induction items with
    | nil => intro m hm; exact hm
    | cons hd tl ih => intro m hm; exact ih _ (groupsWF_region_data_step hd m hm)
  refine main [] ?_
  intro g hg
  simp at hg

/-- C6: for every sequence of push items, `region_data` produces exactly
`sum(len(item.dest) for item in items)` work units (so items with zero
destinations contribute zero), grouped under the key `(item, item.region)`,
and every work unit of a group is the initial `{"push_item": item}` dict of
that group's own item (attributability; within-group order is trivially the
input order since each unit is that same dict).  `region_data` is a pure
function of the item list: it performs no network calls by construction. -/
theorem region_data_partition (items : List AmiPushItem) :
    countUnits (region_data items) = (items.map (fun i => i.dest.length)).sum
    ∧ ∀ g ∈ region_data items,
        g.1.2 = g.1.1.region
        ∧ ∀ u ∈ g.2, u.push_item = g.1.1 ∧ u = DestData.initial g.1.1 := by
  constructor
  · unfold region_data
    have h := countUnits_foldItems items []
    simpa [countUnits] using h
  · intro g hg
    have h := groupsWF_region_data items g hg
    refine ⟨h.1, ?_⟩
    intro u hu
    have hu' := h.2.2 u hu
    exact ⟨by rw [hu']; rfl, hu'⟩

/-- C7: `to_rhsm_product` upper-cases the image type; exactly when the
upper-cased type is `"HOURLY"` the looked-up name is the product short name
with `"_HOURLY"` appended; it returns the first product matching both the
looked-up name and the configured provider name, and returns the
product-not-found error exactly when no product matches. -/
theorem to_rhsm_product_characterization (ps : List RhsmProduct)
    (prov prod ty : String) :
    (∀ p, to_rhsm_product ps prov prod ty = Except.ok p ↔
        ∃ l1 l2, ps = l1 ++ p :: l2
          ∧ productMatches prov (lookedUpName prod ty) p
          ∧ ∀ q ∈ l1, ¬ productMatches prov (lookedUpName prod ty) q)
    ∧ (to_rhsm_product ps prov prod ty
          = Except.error ("Product not in rhsm: " ++ lookedUpName prod ty) ↔
        ∀ q ∈ ps, ¬ productMatches prov (lookedUpName prod ty) q) := by
  have hname : (if pyUpper ty == "HOURLY" then prod ++ "_" ++ pyUpper ty else prod)
      = lookedUpName prod ty := by
    by_cases h : pyUpper ty = "HOURLY"
    · simp only [lookedUpName, h, if_pos rfl, beq_self_eq_true, if_true]
      rw [String.append_assoc]
      rfl
    · simp [lookedUpName, h]
  have hpred : (fun p : RhsmProduct =>
        p.name == (if pyUpper ty == "HOURLY" then prod ++ "_" ++ pyUpper ty else prod)
          && p.providerShortName == prov)
      = fun p => decide (productMatches prov (lookedUpName prod ty) p) := by
    funext p
    rw [hname]
    by_cases h1 : p.name = lookedUpName prod ty
      <;> by_cases h2 : p.providerShortName = prov
      <;> simp [productMatches, h1, h2]
  have hdef : to_rhsm_product ps prov prod ty
      = match ps.find? (fun p => decide (productMatches prov (lookedUpName prod ty) p)) with
        | some p => Except.ok p
        | none => Except.error ("Product not in rhsm: " ++ lookedUpName prod ty) := by
    simp only [to_rhsm_product]
    rw [hpred, hname]
  constructor
  · intro p
    rw [hdef]
    rcases hf : ps.find? (fun p => decide (productMatches prov (lookedUpName prod ty) p))
      with _ | q
    · simp only [List.find?_eq_none] at hf
      simp only []
      constructor
      · intro h; cases h
      · rintro ⟨l1, l2, hps, hmatch, _⟩
        exact absurd (by simpa using hf p (by rw [hps]; simp)) (by simpa using hmatch)
    · rw [List.find?_eq_some] at hf
      obtain ⟨hq, l1, l2, hps, hl1⟩ := hf
      simp only [Except.ok.injEq]
      constructor
      · intro h
        subst h
        refine ⟨l1, l2, hps, by simpa using hq, ?_⟩
        intro r hr
        have := hl1 r hr
        simpa using this
      · rintro ⟨l1', l2', hps', hmatch', hl1'⟩
        -- both decompositions find the first match; show q = p
        have hq' : productMatches prov (lookedUpName prod ty) q := by simpa using hq
        have hfind : ps.find?
            (fun p => decide (productMatches prov (lookedUpName prod ty) p)) = some q := by
          rw [List.find?_eq_some]
          exact ⟨by simpa using hq, l1, l2, hps, hl1⟩
        have hfind' : ps.find?
            (fun p => decide (productMatches prov (lookedUpName prod ty) p)) = some p := by
          rw [List.find?_eq_some]
          refine ⟨by simpa using hmatch', l1', l2', hps', ?_⟩
          intro r hr
          simpa using hl1' r hr
        rw [hfind] at hfind'
        exact Option.some.inj hfind'
  · rw [hdef]
    rcases hf : ps.find? (fun p => decide (productMatches prov (lookedUpName prod ty) p))
      with _ | q
    · simp only [List.find?_eq_none] at hf
      simp only []
      constructor
      · intro _ r hr
        simpa using hf r hr
      · intro _; trivial
    · rw [List.find?_eq_some] at hf
      obtain ⟨hq, l1, l2, hps, _⟩ := hf
      simp only []
      constructor
      · intro h; cases h
      · intro hall
        exact absurd (by simpa using hq) (hall q (by rw [hps]; simp))

/-- C4: `update_rhsm_metadata` first calls `createRegion` and raises on a
non-success response; it then calls `updateImage`, and on a non-ok update
response falls back to `createImage` with the region added; if the create
response is also non-ok it raises, so the item's publish fails (the
function errors) even though the cloud upload already succeeded before it
was invoked. -/
theorem update_rhsm_metadata_sync (resp : RhsmPushResponses) (ps : List RhsmProduct)
    (prov : String) (image : Image) (item : AmiPushItem) (rp : RhsmProduct)
    (hprod : to_rhsm_product ps prov item.release.product item.type = Except.ok rp) :
    ((update_rhsm_metadata resp ps prov image item).1.head?
        = some (Event.createRegion item.region prov))
    ∧ (resp.create_region.ok = false →
        update_rhsm_metadata resp ps prov image item
          = ([Event.createRegion item.region prov],
             Except.error (TaskError.httpError resp.create_region)))
    ∧ (resp.create_region.ok = true →
        ((resp.update_image.ok = true →
          update_rhsm_metadata resp ps prov image item
            = ([Event.createRegion item.region prov,
                Event.updateImage (pushImageMeta rp image item)], Except.ok ()))
        ∧ (resp.update_image.ok = false → resp.create_image.ok = true →
          update_rhsm_metadata resp ps prov image item
            = ([Event.createRegion item.region prov,
                Event.updateImage (pushImageMeta rp image item),
                Event.createImage
                  { pushImageMeta rp image item with region := some item.region }],
               Except.ok ()))
        ∧ (resp.update_image.ok = false → resp.create_image.ok = false →
          update_rhsm_metadata resp ps prov image item
            = ([Event.createRegion item.region prov,
                Event.updateImage (pushImageMeta rp image item),
                Event.createImage
                  { pushImageMeta rp image item with region := some item.region }],
               Except.error (TaskError.httpError resp.create_image))))) := by
  refine ⟨?_, ?_, ?_⟩
  · cases hcr : resp.create_region.ok
    · simp [update_rhsm_metadata, hprod, hcr]
    · cases hui : resp.update_image.ok
      · cases hci : resp.create_image.ok <;>
          simp [update_rhsm_metadata, hprod, hcr, hui, hci]
      · simp [update_rhsm_metadata, hprod, hcr, hui]
  · intro hcr
    simp [update_rhsm_metadata, hprod, hcr]
  · intro hcr
    refine ⟨?_, ?_, ?_⟩
    · intro hui
      simp [update_rhsm_metadata, hprod, hcr, hui]
    · intro hui hci
      simp [update_rhsm_metadata, hprod, hcr, hui, hci]
    · intro hui hci
      simp [update_rhsm_metadata, hprod, hcr, hui, hci]

/-- Concrete instance of `update_rhsm_metadata_sync`: all responses ok. -/
theorem update_rhsm_metadata_sync_witness :
    update_rhsm_metadata ⟨⟨true, 200⟩, ⟨true, 200⟩, ⟨true, 200⟩⟩ sampleProducts "AWS"
        ⟨"ami-1234567", "ami-rhel"⟩ sampleItem
      = ([Event.createRegion "us-east-1" "AWS",
          Event.updateImage
            (pushImageMeta ⟨"RHTEST", "AWS"⟩ ⟨"ami-1234567", "ami-rhel"⟩ sampleItem)],
         Except.ok ()) := by
  have h := update_rhsm_metadata_sync ⟨⟨true, 200⟩, ⟨true, 200⟩, ⟨true, 200⟩⟩
    sampleProducts "AWS" ⟨"ami-1234567", "ami-rhel"⟩ sampleItem ⟨"RHTEST", "AWS"⟩ (by rfl)
  exact (h.2.2 rfl).1 rfl

theorem countAwsDelete_metadata_phase (ids : List String) (ps : List RhsmProduct)
    (prov : String) (dr : Bool) (update_resp : ImageMeta → Response)
    (items : List AmiPushItem) :
    countAwsDelete (delete_update_rhsm_metadata ids ps prov dr update_resp items).1
      = 0 := by
  induction items with
  | nil => rfl
  | cons item rest ih =>
    simp only [delete_update_rhsm_metadata]
    by_cases hknown : imageIdKnown ids item.image_id = true
    · rw [if_pos hknown]
      rcases hprod : to_rhsm_product ps prov item.release.product item.type
        with msg | rp
      · rfl
      · show countAwsDelete
            (if dr = true then delete_update_rhsm_metadata ids ps prov dr update_resp rest
             else if (update_resp (deleteImageMeta rp item)).ok = true then
               (Event.updateImage (deleteImageMeta rp item) ::
                   (delete_update_rhsm_metadata ids ps prov dr update_resp rest).1,
                 (delete_update_rhsm_metadata ids ps prov dr update_resp rest).2)
             else
               ([Event.updateImage (deleteImageMeta rp item)],
                 Except.error
                   (TaskError.httpError (update_resp (deleteImageMeta rp item))))).1 = 0
        cases dr
        · rw [if_neg (by simp)]
          by_cases hok : (update_resp (deleteImageMeta rp item)).ok = true
          · rw [if_pos hok]
            exact ih
          · rw [if_neg hok]
            rfl
        · rw [if_pos rfl]
          exact ih
    · rw [if_neg hknown]
      exact ih

/-- C5: for every push item whose image id is not among the RHSM-known
ids, the metadata update is skipped with a logged warning and processing
continues with the remaining items; for an item whose id is known,
`update_image` is called with the `invisible` status metadata, an ok
response continues, and a non-ok response raises immediately (nothing
after it runs); at the run level, a raising metadata phase aborts the
whole delete task with that exception before any AWS delete call. -/
theorem delete_metadata_gate (ids : List String) (ps : List RhsmProduct) (prov : String)
    (update_resp : ImageMeta → Response) (item : AmiPushItem) (rest : List AmiPushItem)
    (keep : Bool) (limit : Option (List String)) (max_retries : Nat)
    (aws_delete : DeleteMeta → Except String (Option String × Option String))
    (source_items : List AmiPushItem) :
    (imageIdKnown ids item.image_id = false →
      delete_update_rhsm_metadata ids ps prov false update_resp (item :: rest)
        = (Event.warnSkip item.image_id
             :: (delete_update_rhsm_metadata ids ps prov false update_resp rest).1,
           (delete_update_rhsm_metadata ids ps prov false update_resp rest).2))
    ∧ (∀ rp, imageIdKnown ids item.image_id = true →
        to_rhsm_product ps prov item.release.product item.type = Except.ok rp →
        ((deleteImageMeta rp item).status = some "invisible"
        ∧ ((update_resp (deleteImageMeta rp item)).ok = true →
          delete_update_rhsm_metadata ids ps prov false update_resp (item :: rest)
            = (Event.updateImage (deleteImageMeta rp item)
                 :: (delete_update_rhsm_metadata ids ps prov false update_resp rest).1,
               (delete_update_rhsm_metadata ids ps prov false update_resp rest).2))
        ∧ ((update_resp (deleteImageMeta rp item)).ok = false →
          delete_update_rhsm_metadata ids ps prov false update_resp (item :: rest)
            = ([Event.updateImage (deleteImageMeta rp item)],
               Except.error
                 (TaskError.httpError (update_resp (deleteImageMeta rp item)))))))
    ∧ (∀ e, (delete_update_rhsm_metadata ids ps prov false update_resp
          (limit_push_items limit source_items)).2 = Except.error e →
        (delete_run false keep limit max_retries ids ps prov update_resp aws_delete
            source_items).2 = ExitOutcome.exception e
        ∧ countAwsDelete (delete_run false keep limit max_retries ids ps prov
            update_resp aws_delete source_items).1 = 0) := by
  refine ⟨?_, ?_, ?_⟩
  · intro hknown
    rcases hrec : delete_update_rhsm_metadata ids ps prov false update_resp rest
      with ⟨ev, res⟩
    simp [delete_update_rhsm_metadata, hknown, hrec]
  · intro rp hknown hprod
    refine ⟨rfl, ?_, ?_⟩
    · intro hok
      rcases hrec : delete_update_rhsm_metadata ids ps prov false update_resp rest
        with ⟨ev, res⟩
      simp [delete_update_rhsm_metadata, hknown, hprod, hok, hrec]
    · intro hok
      simp [delete_update_rhsm_metadata, hknown, hprod, hok]
  · intro e he
    simp only [delete_run]
    rcases hitems : limit_push_items limit source_items with _ | ⟨i0, irest⟩
    · rw [hitems] at he
      simp [delete_update_rhsm_metadata] at he
    · rw [hitems] at he
      rcases hmeta : delete_update_rhsm_metadata ids ps prov false update_resp
          (i0 :: irest) with ⟨ev, res⟩
      rw [hmeta] at he
      simp only at he
      subst he
      have hcount := countAwsDelete_metadata_phase ids ps prov false update_resp
        (i0 :: irest)
      rw [hmeta] at hcount
      simp only at hcount
      simp [hmeta, hcount]

/-- C9: with the dry-run flag set, `_delete_in_region` performs no AWS
call, leaves every work unit's dict (push item and state included) exactly
as it was and raises nothing, and `update_rhsm_metadata` makes no
`update_image` call. -/
theorem delete_dry_run_frame (keep : Bool)
    (aws_delete : DeleteMeta → Except String (Option String × Option String))
    (data : List DestData) (ids : List String) (ps : List RhsmProduct) (prov : String)
    (update_resp : ImageMeta → Response) (items : List AmiPushItem) :
    _delete_in_region true keep aws_delete data = ([], data, none)
    ∧ ∀ m, Event.updateImage m
        ∉ (delete_update_rhsm_metadata ids ps prov true update_resp items).1 := by
  constructor
  · induction data with
    | nil => rfl
    | cons d rest ih => simp [_delete_in_region, ih]
  · induction items with
    | nil => intro m; simp [delete_update_rhsm_metadata]
    | cons item rest ih =>
      intro m
      rcases hrec : delete_update_rhsm_metadata ids ps prov true update_resp rest
        with ⟨ev, res⟩
      have ih2 : Event.updateImage m ∉ ev := by
        have h := ih m
        rw [hrec] at h
        simpa using h
      simp only [delete_update_rhsm_metadata]
      cases hknown : imageIdKnown ids item.image_id
      · simp only [Bool.false_eq_true, ite_false, hrec]
        simp [ih2]
      · simp only [ite_true]
        rcases hprod : to_rhsm_product ps prov item.release.product item.type
          with msg | rp
        · simp
        · simp only [ite_true, hrec]
          simpa using ih2

/-- C10: when `--limit` is given (a nonempty id list), exactly the push
items whose `image_id` occurs in the list are retained, in their original
relative order (`List.filter`); and whenever the selected item list is
empty, `run` returns immediately with no RHSM update, no AWS delete, no
result collection, and a normal (non-failure) outcome. -/
theorem limit_filter_and_empty_short_circuit (l : List String)
    (items : List AmiPushItem) (dry_run keep : Bool) (limit : Option (List String))
    (max_retries : Nat) (ids : List String) (ps : List RhsmProduct) (prov : String)
    (update_resp : ImageMeta → Response)
    (aws_delete : DeleteMeta → Except String (Option String × Option String))
    (source_items : List AmiPushItem) :
    (l ≠ [] →
      limit_push_items (some l) items
        = items.filter (fun item => match item.image_id with
            | some iid => decide (iid ∈ l)
            | none => false))
    ∧ (limit_push_items limit source_items = [] →
        delete_run dry_run keep limit max_retries ids ps prov update_resp aws_delete
            source_items = ([], ExitOutcome.ok)) := by
  constructor
  · intro hl
    have hemp : l.isEmpty = false := by
      cases l
      · exact absurd rfl hl
      · rfl
    simp [limit_push_items, hemp]
  · intro hemp
    simp [delete_run, hemp]

/-- C1 counterexample: the delete task does not skip work units already in
terminal state: re-running a region batch containing a unit recorded as
`DELETED` invokes the AWS delete capability again for that unit. -/
theorem idempotent_retry_counterexample :
    sampleDeletedUnit.state = some "DELETED"
    ∧ countAwsDelete (_delete_in_region false false (fun _ => Except.ok (none, none))
        [sampleDeletedUnit]).1 = 1 := ⟨rfl, rfl⟩

/-- C1 amended: in the push task `_push_to_region` skips every work unit
whose dict records state `PUSHED` (no upload call, unit returned
unchanged), so a fully-pushed batch is a no-op on retry; the delete task
has no such short-circuit: `_delete_in_region` invokes the AWS delete
capability for the head unit of a non-dry-run batch regardless of its
recorded state. -/
theorem idempotent_retry (upload : AmiPushItem → Except TaskError String)
    (keep : Bool)
    (aws_delete : DeleteMeta → Except String (Option String × Option String)) :
    (∀ d rest, d.state.getD "" = "PUSHED" →
      _push_to_region upload (d :: rest)
        = ((_push_to_region upload rest).1,
           d :: (_push_to_region upload rest).2.1,
           (_push_to_region upload rest).2.2))
    ∧ (∀ data, (∀ d ∈ data, d.state.getD "" = "PUSHED") →
        _push_to_region upload data = ([], data, none))
    ∧ (∀ d rest, Event.awsDelete (deleteMetaFor keep d.push_item)
        ∈ (_delete_in_region false keep aws_delete (d :: rest)).1) := by
  have hskip : ∀ d rest, d.state.getD "" = "PUSHED" →
      _push_to_region upload (d :: rest)
        = ((_push_to_region upload rest).1,
           d :: (_push_to_region upload rest).2.1,
           (_push_to_region upload rest).2.2) := by
    intro d rest h
    rcases hrec : _push_to_region upload rest with ⟨ev, out, err⟩
    have hb : (d.state.getD "" == "PUSHED") = true := by simp [h]
    simp [_push_to_region, hb, hrec]
  refine ⟨hskip, ?_, ?_⟩
  · intro data
    induction data with
    | nil => intro _; rfl
    | cons d rest ih =>
      intro hall
      rw [hskip d rest (hall d (by simp)), ih (fun x hx => hall x (by simp [hx]))]
  · intro d rest
    simp only [_delete_in_region, _delete]
    rcases haws : aws_delete (deleteMetaFor keep d.push_item) with msg | out
    · simp [haws]
    · obtain ⟨iid, sid⟩ := out
      rcases hrec : _delete_in_region false keep aws_delete rest with ⟨ev2, out2, err2⟩
      simp [haws, hrec]

/-- C8 counterexample: an AWS delete returning an id that is non-None but
empty (`""` is falsy in Python) yields state `MISSING`, refuting "at least
one non-None id implies state DELETED" as stated. -/
theorem delete_state_counterexample :
    (some "" : Option String) ≠ none
    ∧ ((_delete_in_region false false (fun _ => Except.ok (some "", none))
        [DestData.initial sampleDeletedItem]).2.1.map (fun u => u.state))
        = [some "MISSING"] := by
  exact ⟨by simp, rfl⟩

/-- C8 amended: for a work unit whose AWS delete call returns
`(None, None)` the resulting state is `MISSING`, not `DELETED`, and the
recorded image and snapshot ids are `None`; the state is `DELETED` exactly
when at least one returned id is truthy, i.e. non-None and non-empty
(Python's `if image_id or snapshot_id`). -/
theorem delete_state_assignment (keep : Bool)
    (aws_delete : DeleteMeta → Except String (Option String × Option String))
    (d : DestData) (rest : List DestData) (iid sid : Option String) :
    (aws_delete (deleteMetaFor keep d.push_item) = Except.ok (iid, sid) →
      (_delete_in_region false keep aws_delete (d :: rest)).2.1.head?
        = some { push_item := { d.push_item with
                   state := (if (truthyOptStr iid || truthyOptStr sid : Bool)
                     then "DELETED" else "MISSING") }
               , state := some (if (truthyOptStr iid || truthyOptStr sid : Bool)
                   then "DELETED" else "MISSING")
               , image_id := some iid
               , snapshot_id := some sid
               , image_name := d.image_name })
    ∧ (aws_delete (deleteMetaFor keep d.push_item) = Except.ok (none, none) →
        (_delete_in_region false keep aws_delete (d :: rest)).2.1.head?
          = some { push_item := { d.push_item with state := "MISSING" }
                 , state := some "MISSING", image_id := some none
                 , snapshot_id := some none, image_name := d.image_name }) := by
  constructor
  · intro h
    rcases hrec : _delete_in_region false keep aws_delete rest with ⟨ev2, out2, err2⟩
    simp [_delete_in_region, _delete, h, hrec]
  · intro h
    rcases hrec : _delete_in_region false keep aws_delete rest with ⟨ev2, out2, err2⟩
    simp [_delete_in_region, _delete, h, hrec, truthyOptStr]

/-- Concrete instance of `delete_state_assignment`: delete returns
`(None, None)` for one unit, so the recorded state is `MISSING`. -/
theorem delete_state_assignment_witness :
    (_delete_in_region false false (fun _ => Except.ok (none, none))
        [DestData.initial sampleDeletedItem]).2.1.head?
      = some { push_item := { sampleDeletedItem with state := "MISSING" }
             , state := some "MISSING", image_id := some none
             , snapshot_id := some none, image_name := none } := by
  exact (delete_state_assignment false (fun _ => Except.ok (none, none))
    (DestData.initial sampleDeletedItem) [] none none).2 rfl

theorem countUpload_cons_upload (item : AmiPushItem) (l : List Event) :
    countUpload (Event.upload item :: l) = countUpload l + 1 := by
  simp [countUpload, List.filter_cons]

theorem countAwsDelete_cons_aws (m : DeleteMeta) (l : List Event) :
    countAwsDelete (Event.awsDelete m :: l) = countAwsDelete l + 1 := by
  simp [countAwsDelete, List.filter_cons]

theorem countUpload_replicate (k : Nat) (item : AmiPushItem) :
    countUpload (List.replicate k (Event.upload item)) = k := by
  induction k with
  | zero => rfl
  | succ n ih => simp [List.replicate_succ, countUpload_cons_upload, ih]

theorem countAwsDelete_replicate (k : Nat) (m : DeleteMeta) :
    countAwsDelete (List.replicate k (Event.awsDelete m)) = k := by
  induction k with
  | zero => rfl
  | succ n ih => simp [List.replicate_succ, countAwsDelete_cons_aws, ih]

theorem join_replicate_singleton {α : Type} (k : Nat) (x : α) :
    (List.replicate k [x]).flatten = List.replicate k x := by
  induction k with
  | zero => rfl
  | succ n ih => simp [List.replicate_succ, ih]

theorem upload_with_retries_fail (e : TaskError) (item : AmiPushItem) (r : Nat) :
    upload_with_retries (fun _ => Except.error e) item r
      = (List.replicate (r + 1) (Event.upload item), "NOTPUSHED", none, none) := by
  induction r with
  | zero => rfl
  | succ n ih => simp [upload_with_retries, ih, List.replicate_succ]

theorem legacy_push_to_region_fail (e : TaskError) (mr : Nat) (data : List DestData) :
    legacy_push_to_region (fun _ => Except.error e) mr data
      = ((data.map (fun dd => List.replicate (mr + 1) (Event.upload dd.push_item))).flatten,
         data.map (fun dd =>
           { push_item := { dd.push_item with state := "NOTPUSHED" }
             state := some "NOTPUSHED"
             image_id := some none
             image_name := some none
             snapshot_id := dd.snapshot_id })) := by
  induction data with
  | nil => rfl
  | cons dd rest ih =>
    simp [legacy_push_to_region, upload_with_retries_fail, ih]

theorem legacy_fold_spec (upload : AmiPushItem → Except TaskError (String × String))
    (mr : Nat) (groups : List ((AmiPushItem × String) × List DestData))
    (acc : List Event × List DestData) :
    (groups.foldl (legacy_push_fold_step upload mr) acc).2
      = acc.2 ++ (groups.map (fun g => (legacy_push_to_region upload mr g.2).2)).flatten := by
  induction groups generalizing acc with
  | nil => simp
  | cons g rest ih =>
    rcases hb : legacy_push_to_region upload mr g.2 with ⟨ev, out⟩
    simp [List.foldl_cons, legacy_push_fold_step, hb, ih, List.append_assoc]

theorem exists_nonempty_group (m : List ((AmiPushItem × String) × List DestData))
    (h : countUnits m ≠ 0) : ∃ g ∈ m, g.2 ≠ [] := by
  induction m with
  | nil => simp [countUnits] at h
  | cons g rest ih =>
    by_cases hg : g.2 = []
    · have h2 : countUnits rest ≠ 0 := by
        simpa [countUnits, hg] using h
      obtain ⟨g1, hg1, hne⟩ := ih h2
      exact ⟨g1, List.mem_cons_of_mem _ hg1, hne⟩
    · exact ⟨g, List.mem_cons_self _ _, hg⟩

theorem countUnits_region_data (items : List AmiPushItem) :
    countUnits (region_data items) = (items.map (fun i => i.dest.length)).sum := by
  unfold region_data
  have h := countUnits_foldItems items []
  simpa [countUnits] using h

theorem delete_in_region_fail (keep : Bool) (msg : String) (d : DestData)
    (rest : List DestData) :
    _delete_in_region false keep (fun _ => Except.error msg) (d :: rest)
      = ([Event.awsDelete (deleteMetaFor keep d.push_item)], d :: rest,
         some (TaskError.awsDeleteError msg)) := by
  simp [_delete_in_region, _delete]

theorem retryBatch_fail (f : List DestData → List Event × List DestData × Option TaskError)
    (data : List DestData) (ev1 : List Event) (er : TaskError)
    (hf : f data = (ev1, data, some er)) :
    ∀ n, retryBatch f n data
      = ((List.replicate (max n 1) ev1).flatten, data, some er) := by
  intro n
  induction n using Nat.strong_induction_on with
  | _ n ih =>
    match n with
    | 0 =>
      show f data = ((List.replicate (max 0 1) ev1).flatten, data, some er)
      rw [hf]
      simp
    | 1 =>
      show f data = ((List.replicate (max 1 1) ev1).flatten, data, some er)
      rw [hf]
      simp
    | m + 2 =>
      simp only [retryBatch]
      split
      · rename_i ev out heq
        rw [hf] at heq
        simp at heq
      · rename_i ev out e2 heq
        rw [hf] at heq
        obtain ⟨h1, h2, h3⟩ := by simpa using heq
        subst h1
        subst h2
        subst h3
        rw [ih (m + 1) (by omega)]
        have hm2 : max (m + 2) 1 = m + 2 := by omega
        have hm1 : max (m + 1) 1 = m + 1 := by omega
        rw [hm2, hm1]
        simp [List.replicate_succ]

theorem do_delete_step_flag_true (dr keep : Bool) (mr : Nat)
    (aws : DeleteMeta → Except String (Option String × Option String))
    (acc : List Event × Bool × List DestData)
    (g : (AmiPushItem × String) × List DestData) (h : acc.2.1 = true) :
    (do_delete_step dr keep mr aws acc g).2.1 = true := by
  rcases hr : retryBatch (_delete_in_region dr keep aws) mr g.2 with ⟨ev, out, err⟩
  cases err <;> simp [do_delete_step, hr, h]

theorem do_delete_step_flag_trigger (dr keep : Bool) (mr : Nat)
    (aws : DeleteMeta → Except String (Option String × Option String))
    (acc : List Event × Bool × List DestData)
    (g : (AmiPushItem × String) × List DestData)
    (herr : (retryBatch (_delete_in_region dr keep aws) mr g.2).2.2 ≠ none) :
    (do_delete_step dr keep mr aws acc g).2.1 = true := by
  rcases hr : retryBatch (_delete_in_region dr keep aws) mr g.2 with ⟨ev, out, err⟩
  rw [hr] at herr
  cases err
  · exact absurd rfl herr
  · simp [do_delete_step, hr]

theorem foldl_do_delete_step_flag (dr keep : Bool) (mr : Nat)
    (aws : DeleteMeta → Except String (Option String × Option String))
    (groups : List ((AmiPushItem × String) × List DestData))
    (acc : List Event × Bool × List DestData) (h : acc.2.1 = true) :
    (groups.foldl (do_delete_step dr keep mr aws) acc).2.1 = true := by
  induction groups generalizing acc with
  | nil => exact h
  | cons g rest ih =>
    exact ih _ (do_delete_step_flag_true dr keep mr aws acc g h)

theorem foldl_do_delete_step_trigger (dr keep : Bool) (mr : Nat)
    (aws : DeleteMeta → Except String (Option String × Option String))
    (groups : List ((AmiPushItem × String) × List DestData))
    (g : (AmiPushItem × String) × List DestData) (hg : g ∈ groups)
    (herr : (retryBatch (_delete_in_region dr keep aws) mr g.2).2.2 ≠ none) :
    ∀ acc, (groups.foldl (do_delete_step dr keep mr aws) acc).2.1 = true := by
  induction groups with
  | nil => cases hg
  | cons g0 rest ih =>
    intro acc
    rcases List.mem_cons.mp hg with h1 | h1
    · subst h1
      exact foldl_do_delete_step_flag dr keep mr aws rest _
        (do_delete_step_flag_trigger dr keep mr aws acc g herr)
    · exact ih h1 _

/-- C2 counterexample: with `--max-retries 2` and an always-raising AWS
delete, the delete batch's AWS call is made exactly 2 times
(`ExceptionRetryPolicy(max_attempts=args.max_retries)`), not
`max-retries + 1 = 3` times as the claim states. -/
theorem retry_exhaustion_counterexample :
    countAwsDelete (retryBatch (_delete_in_region false false
        (fun _ => Except.error "AWS operation failed"))
        2 [DestData.initial sampleDeletedItem]).1 = 2
    ∧ (2 : Nat) ≠ 2 + 1 := ⟨rfl, by decide⟩

/-- C2 amended: with a provider operation that raises on every attempt,
the legacy push task's item-level loop invokes upload exactly
`max_retries + 1` times per work unit and ends the unit in state
`NOTPUSHED`, and the legacy push run exits with code 30 when any work unit
exists; the delete task's executor-level retry instead attempts the batch
function exactly `max(max_retries, 1)` times in total (one AWS call per
attempt on a single-unit batch), the batch ends in the raised error, and
the delete run exits with code 30. -/
theorem retry_exhaustion (e : TaskError) (msg : String) (max_retries : Nat)
    (item : AmiPushItem) (keep : Bool) (d : DestData) (items : List AmiPushItem)
    (ids : List String) (ps : List RhsmProduct) (prov : String)
    (update_resp : ImageMeta → Response) :
    (countUpload (upload_with_retries (fun _ => Except.error e) item max_retries).1
        = max_retries + 1
      ∧ (upload_with_retries (fun _ => Except.error e) item max_retries).2.1
        = "NOTPUSHED")
    ∧ ((items.map (fun i => i.dest.length)).sum ≠ 0 →
        (legacy_push_run (fun _ => Except.error e) max_retries items).2
          = ExitOutcome.failCode 30)
    ∧ (countAwsDelete (retryBatch (_delete_in_region false keep
            (fun _ => Except.error msg)) max_retries [d]).1 = max max_retries 1
      ∧ (retryBatch (_delete_in_region false keep (fun _ => Except.error msg))
          max_retries [d]).2.2 = some (TaskError.awsDeleteError msg))
    ∧ ((items.map (fun i => i.dest.length)).sum ≠ 0 →
        (delete_update_rhsm_metadata ids ps prov false update_resp items).2
          = Except.ok () →
        (delete_run false keep none max_retries ids ps prov update_resp
            (fun _ => Except.error msg) items).2 = ExitOutcome.failCode 30) := by
  refine ⟨⟨?_, ?_⟩, ?_, ⟨?_, ?_⟩, ?_⟩
  · rw [upload_with_retries_fail]
    exact countUpload_replicate _ _
  · rw [upload_with_retries_fail]
  · intro hsum
    have hcount : countUnits (region_data items) ≠ 0 := by
      rw [countUnits_region_data]
      exact hsum
    obtain ⟨g, hg, hne⟩ := exists_nonempty_group _ hcount
    rcases hgl : g.2 with _ | ⟨d0, drest⟩
    · exact absurd hgl hne
    · have hmem : ({ push_item := { d0.push_item with state := "NOTPUSHED" }
                     state := some "NOTPUSHED"
                     image_id := some none
                     image_name := some none
                     snapshot_id := d0.snapshot_id } : DestData)
          ∈ ((region_data items).foldl
              (legacy_push_fold_step (fun _ => Except.error e) max_retries) ([], [])).2 := by
        rw [legacy_fold_spec]
        simp only [List.nil_append]
        apply List.mem_flatten.mpr
        refine ⟨(legacy_push_to_region (fun _ => Except.error e) max_retries g.2).2,
          ?_, ?_⟩
        · exact List.mem_map_of_mem _ hg
        · rw [legacy_push_to_region_fail, hgl]
          simp
      have hany : (((region_data items).foldl
            (legacy_push_fold_step (fun _ => Except.error e) max_retries) ([], [])).2).any
            (fun r => !truthyOptStr (r.image_id.getD none)) = true := by
        apply List.any_eq_true.mpr
        exact ⟨_, hmem, by rfl⟩
      simp [legacy_push_run, hany]
  · rw [retryBatch_fail _ _ _ _ (delete_in_region_fail keep msg d []) max_retries,
        join_replicate_singleton]
    exact countAwsDelete_replicate _ _
  · rw [retryBatch_fail _ _ _ _ (delete_in_region_fail keep msg d []) max_retries]
  · intro hsum hmeta
    have hcount : countUnits (region_data items) ≠ 0 := by
      rw [countUnits_region_data]
      exact hsum
    obtain ⟨g, hg, hne⟩ := exists_nonempty_group _ hcount
    have herr : (retryBatch (_delete_in_region false keep (fun _ => Except.error msg))
        max_retries g.2).2.2 ≠ none := by
      rcases hgl : g.2 with _ | ⟨d0, drest⟩
      · exact absurd hgl hne
      · rw [retryBatch_fail _ _ _ _ (delete_in_region_fail keep msg d0 drest) max_retries]
        simp
    have hflag : (do_delete false keep max_retries (fun _ => Except.error msg) items).2.1
        = true := by
      unfold do_delete
      exact foldl_do_delete_step_trigger false keep max_retries _ (region_data items)
        g hg herr _
    have hlim : limit_push_items none items = items := rfl
    have hempty : items.isEmpty = false := by
      cases items
      · simp at hsum
      · rfl
    simp only [delete_run]
    rw [hlim, if_neg (by simp [hempty])]
    rcases hm : delete_update_rhsm_metadata ids ps prov false update_resp items
      with ⟨ev, res⟩
    rw [hm] at hmeta
    have hres : res = Except.ok () := hmeta
    subst hres
    simp [hflag]

theorem isNotNull_of_ne (v : Json) (hv : v ≠ Json.null) : isNotNull v = true := by
  cases v
  · exact absurd rfl hv
  all_goals rfl

theorem jLookup_stripNulls_of_ne_null (kvs : List (String × Json)) (k : String)
    (v : Json) (h : jLookup kvs k = some v) (hv : v ≠ Json.null) :
    jLookup (stripNulls kvs) k = some v := by
  induction kvs with
  | nil => simp [jLookup] at h
  | cons kv rest ih =>
    obtain ⟨k0, v0⟩ := kv
    simp only [jLookup] at h
    simp only [stripNulls, List.filter_cons] at ih ⊢
    by_cases hk : k0 = k
    · rw [if_pos hk] at h
      have hv0 : v0 = v := Option.some.inj h
      subst hv0
      rw [if_pos (isNotNull_of_ne v0 hv)]
      simp only [jLookup]
      rw [if_pos hk]
    · rw [if_neg hk] at h
      by_cases h0 : isNotNull v0 = true
      · rw [if_pos h0]
        simp only [jLookup]
        rw [if_neg hk]
        exact ih h
      · rw [if_neg h0]
        exact ih h

theorem jLookup_stripNulls_none (kvs : List (String × Json)) (k : String)
    (h : jLookup kvs k = none) : jLookup (stripNulls kvs) k = none := by
  induction kvs with
  | nil => rfl
  | cons kv rest ih =>
    obtain ⟨k0, v0⟩ := kv
    simp only [jLookup] at h
    simp only [stripNulls, List.filter_cons] at ih ⊢
    by_cases hk : k0 = k
    · rw [if_pos hk] at h
      cases h
    · rw [if_neg hk] at h
      by_cases h0 : isNotNull v0 = true
      · rw [if_pos h0]
        simp only [jLookup]
        rw [if_neg hk]
        exact ih h
      · rw [if_neg h0]
        exact ih h

theorem jLookup_eq_none_of_not_mem_keys (kvs : List (String × Json)) (k : String)
    (h : k ∉ kvs.map Prod.fst) : jLookup kvs k = none := by
  induction kvs with
  | nil => rfl
  | cons kv rest ih =>
    obtain ⟨k0, v0⟩ := kv
    simp only [List.map_cons, List.mem_cons] at h
    push_neg at h
    obtain ⟨hne, hmem⟩ := h
    simp only [jLookup]
    rw [if_neg (Ne.symm hne)]
    exact ih hmem

theorem jLookup_stripNulls_null_nodup (kvs : List (String × Json)) (k : String)
    (hnd : (kvs.map Prod.fst).Nodup) (h : jLookup kvs k = some Json.null) :
    jLookup (stripNulls kvs) k = none := by
  induction kvs with
  | nil => rfl
  | cons kv rest ih =>
    obtain ⟨k0, v0⟩ := kv
    simp only [List.map_cons, List.nodup_cons] at hnd
    simp only [jLookup] at h
    simp only [stripNulls, List.filter_cons] at ih ⊢
    by_cases hk : k0 = k
    · rw [if_pos hk] at h
      have hv0 : v0 = Json.null := Option.some.inj h
      subst hv0
      rw [if_neg (by simp [isNotNull])]
      have hrest : jLookup rest k = none := by
        apply jLookup_eq_none_of_not_mem_keys
        rw [← hk]
        exact hnd.1
      exact jLookup_stripNulls_none rest k hrest
    · rw [if_neg hk] at h
      by_cases h0 : isNotNull v0 = true
      · rw [if_pos h0]
        simp only [jLookup]
        rw [if_neg hk]
        exact ih hnd.2 h
      · rw [if_neg h0]
        exact ih hnd.2 h

theorem jLookup_setKey_self (kvs : List (String × Json)) (k : String) (v : Json) :
    jLookup (setKey kvs k v) k = some v := by
  induction kvs with
  | nil => simp [setKey, jLookup]
  | cons kv rest ih =>
    obtain ⟨k0, v0⟩ := kv
    by_cases hk : k0 = k
    · simp [setKey, hk, jLookup]
    · simp only [setKey, if_neg hk, jLookup]
      exact ih

theorem jLookup_setKey_other (kvs : List (String × Json)) (k k2 : String) (v : Json)
    (h : k2 ≠ k) : jLookup (setKey kvs k v) k2 = jLookup kvs k2 := by
  induction kvs with
  | nil =>
    simp only [setKey, jLookup]
    rw [if_neg (fun hk => h hk.symm)]
  | cons kv rest ih =>
    obtain ⟨k0, v0⟩ := kv
    by_cases hk : k0 = k
    · simp only [setKey, if_pos hk, jLookup]
      rw [if_neg (fun hh => h hh.symm), if_neg (fun hh => h (hk ▸ hh).symm)]
    · simp only [setKey, if_neg hk, jLookup]
      by_cases hk2 : k0 = k2
      · rw [if_pos hk2, if_pos hk2]
      · rw [if_neg hk2, if_neg hk2]
        exact ih

theorem pushItemDict_keys_nodup (item : AmiPushItem) :
    ((pushItemDict item).map Prod.fst).Nodup := by
  have hkeys : (pushItemDict item).map Prod.fst
      = ["name", "state", "src", "dest", "description", "region", "type",
         "virtualization", "volume", "root_device", "sriov_net_support",
         "ena_support", "billing_codes", "release", "image_id", "public_image",
         "boot_mode"] := rfl
  rw [hkeys]
  decide

theorem setKeyIfPresent_none (kvs : List (String × Json)) (k : String) :
    setKeyIfPresent kvs k none = kvs := rfl

theorem jLookup_setKeyIfPresent_other (kvs : List (String × Json)) (k k2 : String)
    (o : Option (Option String)) (h : k2 ≠ k) :
    jLookup (setKeyIfPresent kvs k o) k2 = jLookup kvs k2 := by
  cases o
  · rfl
  · exact jLookup_setKey_other _ _ _ _ h

theorem jLookup_setKeyIfPresent_some (kvs : List (String × Json)) (k : String)
    (v : Option String) :
    jLookup (setKeyIfPresent kvs k (some v)) k = some (optStr v) :=
  jLookup_setKey_self _ _ _

theorem jLookup_collect_other (result : DestData) (k : String)
    (h1 : k ≠ "ami") (h2 : k ≠ "name") (h3 : k ≠ "snapshot_id") :
    jLookup (collect_result_entry result) k
      = jLookup (stripNulls (pushItemDict result.push_item)) k := by
  unfold collect_result_entry
  rw [jLookup_setKeyIfPresent_other _ _ _ _ h3,
      jLookup_setKeyIfPresent_other _ _ _ _ h2,
      jLookup_setKeyIfPresent_other _ _ _ _ h1]

theorem jLookup_collect_of_base (result : DestData) (k : String) (v : Json)
    (h1 : k ≠ "ami") (h2 : k ≠ "name") (h3 : k ≠ "snapshot_id")
    (hbase : jLookup (pushItemDict result.push_item) k = some v)
    (hv : v ≠ Json.null) :
    jLookup (collect_result_entry result) k = some v := by
  rw [jLookup_collect_other result k h1 h2 h3]
  exact jLookup_stripNulls_of_ne_null _ _ _ hbase hv

theorem jLookup_collect_none_of_base (result : DestData) (k : String)
    (h1 : k ≠ "ami") (h2 : k ≠ "name") (h3 : k ≠ "snapshot_id")
    (hbase : jLookup (pushItemDict result.push_item) k = some Json.null) :
    jLookup (collect_result_entry result) k = none := by
  rw [jLookup_collect_other result k h1 h2 h3]
  exact jLookup_stripNulls_null_nodup _ _ (pushItemDict_keys_nodup _) hbase

/-- C3 counterexample: the `RESULT_KEY_MAPPING` step overwrites the
serialized push item's own `name` field with the result's image name, so
an entry whose image name differs from the item name does not reproduce
the original non-null `name` field of the PushItem. -/
theorem collect_round_trip_counterexample :
    sampleResult.push_item.name = "fake-name"
    ∧ jLookup (collect_result_entry sampleResult) "name" = some (Json.str "ami-rhel")
    ∧ Json.str "ami-rhel" ≠ Json.str "fake-name" := by
  refine ⟨rfl, rfl, ?_⟩
  intro h
  injection h with h2
  exact absurd h2 (by decide)

/-- C3 amended: a collected result re-parses to the image id under `ami`,
the image name under `name`, and the snapshot id under `snapshot_id` when
the result dict carries those keys (absent keys add nothing); every other
field of the original PushItem is reproduced under its own key when
non-null and is absent when null; the item's own `name` field, however, is
reproduced only when the result carries no image name — when it does, the
image name overwrites it (the correction forced by the counterexample). -/
theorem collect_round_trip (result : DestData) :
    (∀ v, result.image_id = some v →
      jLookup (collect_result_entry result) "ami" = some (optStr v))
    ∧ (result.image_id = none →
      jLookup (collect_result_entry result) "ami" = none)
    ∧ (∀ v, result.image_name = some v →
      jLookup (collect_result_entry result) "name" = some (optStr v))
    ∧ (result.image_name = none →
      jLookup (collect_result_entry result) "name"
        = some (Json.str result.push_item.name))
    ∧ (∀ v, result.snapshot_id = some v →
      jLookup (collect_result_entry result) "snapshot_id" = some (optStr v))
    ∧ (result.snapshot_id = none →
      jLookup (collect_result_entry result) "snapshot_id" = none)
    ∧ jLookup (collect_result_entry result) "state"
        = some (Json.str result.push_item.state)
    ∧ jLookup (collect_result_entry result) "region"
        = some (Json.str result.push_item.region)
    ∧ jLookup (collect_result_entry result) "type"
        = some (Json.str result.push_item.type)
    ∧ jLookup (collect_result_entry result) "virtualization"
        = some (Json.str result.push_item.virtualization)
    ∧ jLookup (collect_result_entry result) "volume"
        = some (Json.str result.push_item.volume)
    ∧ jLookup (collect_result_entry result) "dest"
        = some (Json.arr (result.push_item.dest.map Json.str))
    ∧ jLookup (collect_result_entry result) "billing_codes"
        = some (Json.obj (billingCodesDict result.push_item.billing_codes))
    ∧ jLookup (collect_result_entry result) "release"
        = some (Json.obj (releaseDict result.push_item.release))
    ∧ (∀ s, result.push_item.src = some s →
        jLookup (collect_result_entry result) "src" = some (Json.str s))
    ∧ (result.push_item.src = none →
        jLookup (collect_result_entry result) "src" = none)
    ∧ (∀ s, result.push_item.description = some s →
        jLookup (collect_result_entry result) "description" = some (Json.str s))
    ∧ (result.push_item.description = none →
        jLookup (collect_result_entry result) "description" = none)
    ∧ (∀ s, result.push_item.root_device = some s →
        jLookup (collect_result_entry result) "root_device" = some (Json.str s))
    ∧ (result.push_item.root_device = none →
        jLookup (collect_result_entry result) "root_device" = none)
    ∧ (∀ s, result.push_item.sriov_net_support = some s →
        jLookup (collect_result_entry result) "sriov_net_support"
          = some (Json.str s))
    ∧ (result.push_item.sriov_net_support = none →
        jLookup (collect_result_entry result) "sriov_net_support" = none)
    ∧ (∀ b, result.push_item.ena_support = some b →
        jLookup (collect_result_entry result) "ena_support" = some (Json.bool b))
    ∧ (result.push_item.ena_support = none →
        jLookup (collect_result_entry result) "ena_support" = none)
    ∧ (∀ s, result.push_item.image_id = some s →
        jLookup (collect_result_entry result) "image_id" = some (Json.str s))
    ∧ (result.push_item.image_id = none →
        jLookup (collect_result_entry result) "image_id" = none)
    ∧ (∀ b, result.push_item.public_image = some b →
        jLookup (collect_result_entry result) "public_image" = some (Json.bool b))
    ∧ (result.push_item.public_image = none →
        jLookup (collect_result_entry result) "public_image" = none)
    ∧ (∀ b, result.push_item.boot_mode = some b →
        jLookup (collect_result_entry result) "boot_mode"
          = some (Json.str b.value))
    ∧ (result.push_item.boot_mode = none →
        jLookup (collect_result_entry result) "boot_mode" = none) := by
  refine ⟨?_, ?_, ?_, ?_, ?_, ?_, ?_, ?_, ?_, ?_, ?_, ?_, ?_, ?_, ?_, ?_, ?_, ?_,
    ?_, ?_, ?_, ?_, ?_, ?_, ?_, ?_, ?_, ?_, ?_, ?_⟩
  · intro v h
    unfold collect_result_entry
    rw [jLookup_setKeyIfPresent_other _ _ _ _ (by decide),
        jLookup_setKeyIfPresent_other _ _ _ _ (by decide), h,
        jLookup_setKeyIfPresent_some]
  · intro h
    unfold collect_result_entry
    rw [jLookup_setKeyIfPresent_other _ _ _ _ (by decide),
        jLookup_setKeyIfPresent_other _ _ _ _ (by decide), h, setKeyIfPresent_none]
    exact jLookup_stripNulls_none _ _ rfl
  · intro v h
    unfold collect_result_entry
    rw [jLookup_setKeyIfPresent_other _ _ _ _ (by decide), h,
        jLookup_setKeyIfPresent_some]
  · intro h
    unfold collect_result_entry
    rw [jLookup_setKeyIfPresent_other _ _ _ _ (by decide), h, setKeyIfPresent_none,
        jLookup_setKeyIfPresent_other _ _ _ _ (by decide)]
    exact jLookup_stripNulls_of_ne_null _ _ _ rfl (by simp)
  · intro v h
    unfold collect_result_entry
    rw [h, jLookup_setKeyIfPresent_some]
  · intro h
    unfold collect_result_entry
    rw [h, setKeyIfPresent_none,
        jLookup_setKeyIfPresent_other _ _ _ _ (by decide),
        jLookup_setKeyIfPresent_other _ _ _ _ (by decide)]
    exact jLookup_stripNulls_none _ _ rfl
  · exact jLookup_collect_of_base result "state" _ (by decide) (by decide) (by decide)
      rfl (by simp)
  · exact jLookup_collect_of_base result "region" _ (by decide) (by decide) (by decide)
      rfl (by simp)
  · exact jLookup_collect_of_base result "type" _ (by decide) (by decide) (by decide)
      rfl (by simp)
  · exact jLookup_collect_of_base result "virtualization" _ (by decide) (by decide)
      (by decide) rfl (by simp)
  · exact jLookup_collect_of_base result "volume" _ (by decide) (by decide) (by decide)
      rfl (by simp)
  · exact jLookup_collect_of_base result "dest" _ (by decide) (by decide) (by decide)
      rfl (by simp)
  · exact jLookup_collect_of_base result "billing_codes" _ (by decide) (by decide)
      (by decide) rfl (by simp)
  · exact jLookup_collect_of_base result "release" _ (by decide) (by decide)
      (by decide) rfl (by simp)
  · intro s h
    refine jLookup_collect_of_base result "src" (Json.str s) (by decide) (by decide)
      (by decide) ?_ (by simp)
    have hb : jLookup (pushItemDict result.push_item) "src"
        = some (optStr result.push_item.src) := rfl
    rw [h] at hb
    exact hb
  · intro h
    refine jLookup_collect_none_of_base result "src" (by decide) (by decide)
      (by decide) ?_
    have hb : jLookup (pushItemDict result.push_item) "src"
        = some (optStr result.push_item.src) := rfl
    rw [h] at hb
    exact hb
  · intro s h
    refine jLookup_collect_of_base result "description" (Json.str s) (by decide)
      (by decide) (by decide) ?_ (by simp)
    have hb : jLookup (pushItemDict result.push_item) "description"
        = some (optStr result.push_item.description) := rfl
    rw [h] at hb
    exact hb
  · intro h
    refine jLookup_collect_none_of_base result "description" (by decide) (by decide)
      (by decide) ?_
    have hb : jLookup (pushItemDict result.push_item) "description"
        = some (optStr result.push_item.description) := rfl
    rw [h] at hb
    exact hb
  · intro s h
    refine jLookup_collect_of_base result "root_device" (Json.str s) (by decide)
      (by decide) (by decide) ?_ (by simp)
    have hb : jLookup (pushItemDict result.push_item) "root_device"
        = some (optStr result.push_item.root_device) := rfl
    rw [h] at hb
    exact hb
  · intro h
    refine jLookup_collect_none_of_base result "root_device" (by decide) (by decide)
      (by decide) ?_
    have hb : jLookup (pushItemDict result.push_item) "root_device"
        = some (optStr result.push_item.root_device) := rfl
    rw [h] at hb
    exact hb
  · intro s h
    refine jLookup_collect_of_base result "sriov_net_support" (Json.str s) (by decide)
      (by decide) (by decide) ?_ (by simp)
    have hb : jLookup (pushItemDict result.push_item) "sriov_net_support"
        = some (optStr result.push_item.sriov_net_support) := rfl
    rw [h] at hb
    exact hb
  · intro h
    refine jLookup_collect_none_of_base result "sriov_net_support" (by decide)
      (by decide) (by decide) ?_
    have hb : jLookup (pushItemDict result.push_item) "sriov_net_support"
        = some (optStr result.push_item.sriov_net_support) := rfl
    rw [h] at hb
    exact hb
  · intro b h
    refine jLookup_collect_of_base result "ena_support" (Json.bool b) (by decide)
      (by decide) (by decide) ?_ (by simp)
    have hb : jLookup (pushItemDict result.push_item) "ena_support"
        = some (optBool result.push_item.ena_support) := rfl
    rw [h] at hb
    exact hb
  · intro h
    refine jLookup_collect_none_of_base result "ena_support" (by decide) (by decide)
      (by decide) ?_
    have hb : jLookup (pushItemDict result.push_item) "ena_support"
        = some (optBool result.push_item.ena_support) := rfl
    rw [h] at hb
    exact hb
  · intro s h
    refine jLookup_collect_of_base result "image_id" (Json.str s) (by decide)
      (by decide) (by decide) ?_ (by simp)
    have hb : jLookup (pushItemDict result.push_item) "image_id"
        = some (optStr result.push_item.image_id) := rfl
    rw [h] at hb
    exact hb
  · intro h
    refine jLookup_collect_none_of_base result "image_id" (by decide) (by decide)
      (by decide) ?_
    have hb : jLookup (pushItemDict result.push_item) "image_id"
        = some (optStr result.push_item.image_id) := rfl
    rw [h] at hb
    exact hb
  · intro b h
    refine jLookup_collect_of_base result "public_image" (Json.bool b) (by decide)
      (by decide) (by decide) ?_ (by simp)
    have hb : jLookup (pushItemDict result.push_item) "public_image"
        = some (optBool result.push_item.public_image) := rfl
    rw [h] at hb
    exact hb
  · intro h
    refine jLookup_collect_none_of_base result "public_image" (by decide) (by decide)
      (by decide) ?_
    have hb : jLookup (pushItemDict result.push_item) "public_image"
        = some (optBool result.push_item.public_image) := rfl
    rw [h] at hb
    exact hb
  · intro b h
    refine jLookup_collect_of_base result "boot_mode" (Json.str b.value) (by decide)
      (by decide) (by decide) ?_ (by simp)
    have hb : jLookup (pushItemDict result.push_item) "boot_mode"
        = some (jsonOfBootMode result.push_item.boot_mode) := rfl
    rw [h] at hb
    exact hb
  · intro h
    refine jLookup_collect_none_of_base result "boot_mode" (by decide) (by decide)
      (by decide) ?_
    have hb : jLookup (pushItemDict result.push_item) "boot_mode"
        = some (jsonOfBootMode result.push_item.boot_mode) := rfl
    rw [h] at hb
    exact hb

end PubtoolsAmi
